import Mathlib

/-!
Verification development for the configuration-resolver component `GameSetup`
(src/testing.ts).  The TypeScript class is shallowly embedded: the component's
mutable fields become an explicit `GameSetupState`, JS `null`/`undefined`
object fields become `Option`, JS property accesses that can throw a
`TypeError` are embedded in `Except String`, and external builtins
(`JSON.stringify`, `Array.prototype.sort`, regular-expression tests) are
modelled by concrete executable Lean functions.
-/

namespace GameSetupSpec

/-! ## Data model

The interfaces `ISetupResult`, `ISettings`, `IDisplayOptions`, `IPlayState`,
`IPlatformBetOption`, ... are imported by src/testing.ts from files that are
not part of the sources; their fields and nullability are reconstructed from
every use site in src/testing.ts (and from the editor default classes
`DisplayOptions`, `AutoPlayConfig`, `RecallOptions` declared in the file
itself).  A field is `Option` when some use site guards it for `null` or
`undefined`. -/

/-- Reconstructed from usage: `platformBetOption` decoded form with `list`
and `defaultMult` fields (see `BetScalers` and `DefaultBetScale`). -/
structure IPlatformBetOption where
  list : List Int
  defaultMult : Int
deriving DecidableEq, Repr

/-- A `platformBetOption` value as it sits on a setup result: either the raw
encoded string (JS `string`) or the decoded structured value (JS object).
The external builtin `JSON.parse` is modelled by letting the string variant
carry its decode outcome: `decoded = some o` when `JSON.parse` succeeds with
`o`, `none` when it raises a parse error. -/
inductive BetOptionValue where
  | strVal (raw : String) (decoded : Option IPlatformBetOption)
  | objVal (o : IPlatformBetOption)
deriving DecidableEq, Repr

/-- Reconstructed from usage: the `playResult` payload of a prior play
(`playId`, `PlaySequenceNumber`, `GamePlayIndex` are the fields read in
src/testing.ts). -/
structure IPlayResult where
  playId : Int
  PlaySequenceNumber : Int
  GamePlayIndex : Int
deriving DecidableEq, Repr

/-- Reconstructed from usage: one entry of the round-history list. -/
structure IPlayState where
  playResult : IPlayResult
  platformBetOption : Option BetOptionValue
deriving DecidableEq, Repr

/-- Reconstructed from usage: jurisdiction settings sub-record. -/
structure IJuris where
  timeZone : Option String
  autoCompleteDayFreq : Int
  autoCompleteDayMax : Int
  useLocalTimeZone : Bool
deriving DecidableEq, Repr

/-- Mirrors the editor class `AutoPlayConfig` (src/testing.ts). -/
structure IAutoPlayConfig where
  type : String
  options : List Int
  max : Int
deriving DecidableEq, Repr

/-- Mirrors the editor class `RecallOptions` (src/testing.ts). -/
structure IRecallOptions where
  enabled : Bool
  history : Int
deriving DecidableEq, Repr

/-- Mirrors the editor class `DisplayOptions` (src/testing.ts). -/
structure IDisplayOptions where
  autoSpin : IAutoPlayConfig
  balance : Bool
  bet : Bool
  gameName : Bool
  help : Bool
  language : Bool
  lobby : Bool
  lobbyExclusion : String
  «recall» : IRecallOptions
  rtp : Bool
  serverTime : Bool
  sessionTime : Bool
  settings : Bool
  sound : Bool
  turbo : Bool
deriving DecidableEq, Repr

/-- Reconstructed from usage: the `settings` sub-record of a setup result. -/
structure ISettings where
  use12HourClock : Option Bool
  uiDisplayOptions : Option IDisplayOptions
  juris : Option IJuris
  lobbyUrl : Option String
  lobbyWindowDepth : Option String
  keyboardEnabled : Bool
  minimumSpinDelay : Int
  disableDemo : Option Bool
  prizeForceEnabled : Bool
  quickStopEnabled : Bool
  wagerDisplay : Option String
deriving DecidableEq, Repr

/-- Reconstructed from usage: a denom config carries an optional RTP array.
RTP entries are modelled as rationals (JS numbers used only through
comparison, division by 100 and two-decimal formatting here). -/
structure IDenomConfig where
  rtp : Option (List Rat)
deriving DecidableEq, Repr

/-- Reconstructed from usage: a bet config; none of its fields are read in
src/testing.ts, so it is an opaque payload. -/
structure IBetConfig where
  payload : Int
deriving DecidableEq, Repr

/-- Reconstructed from usage: the default-bet record; fields unread in
src/testing.ts. -/
structure IDefaultBet where
  payload : Int
deriving DecidableEq, Repr

/-- Reconstructed from usage: the remote setup result.  The JS string-keyed
maps `denomConfigs` and `betConfigs` are embedded as association lists in
`for ... in` iteration order. -/
structure ISetupResult where
  settings : Option ISettings
  denomConfigs : Option (List (String × IDenomConfig))
  betConfigs : Option (List (String × IBetConfig))
  roundStates : Option (List IPlayState)
  previousRoundState : Option IPlayState
  defaultBet : Option IDefaultBet
  time : Int
  activeDenom : Int
  platformBetOption : Option BetOptionValue
  rgsTzOffset : Int
  version : Int
deriving DecidableEq, Repr

/-- Mirrors the nested shape of `ISubClientConfig.client` (src/testing.ts). -/
structure ISubClientInner where
  servicePath : Option String
deriving DecidableEq, Repr

/-- Mirrors `ISubClientConfig` (src/testing.ts). -/
structure ISubClientConfig where
  client : Option ISubClientInner
deriving DecidableEq, Repr

/-- Mirrors `IClientConfig` (src/testing.ts); `?` and `| null` fields become
`Option`. -/
structure IClientConfig where
  gameId : String
  platformId : String
  serverHost : String
  serverPort : Int
  rgsVersion : String
  operatorId : Option String
  gameType : String
  clientType : Option String
  locale : Option String
  currencyCode : Option String
  userId : String
  userToken : String
  use12HourClock : Bool
  version : String
  «recall» : Option Int
  jurisdiction : String
  lobbyUrl : Option String
  rgsUser : Option String
  rgsSession : Option String
  platformRecallRoundId : Option String
  clientconfig : Option ISubClientConfig
deriving DecidableEq, Repr

/-- The mutable fields of the `GameSetup` component, plus the ambient
`window.navigator.userAgent` string read by `IsWebView`.
`clientDefaultsDisplayOptions` is `this._clientDefaults.displayOptions`, the
editor-default display options used by the setup-received handler. -/
structure GameSetupState where
  clientConfig : Option IClientConfig
  rgsConfig : Option ISetupResult
  clientDefaultsDisplayOptions : IDisplayOptions
  onSetupCompleteHandlers : List Nat
  userAgent : String
deriving DecidableEq, Repr

/-! ## Enumerations from src/testing.ts -/

inductive ClientType where
  | Desktop
  | Mobile
deriving DecidableEq, Repr

inductive GameType where
  | Social
  | Wager
deriving DecidableEq, Repr

/-- Members of the `DisplayKey` enum actually covered by the `ShouldDisplay`
switch in src/testing.ts (the enum itself is imported from a file outside the
sources; the spec notes further, uncovered members may exist). -/
inductive DisplayKey where
  | AutoSpin
  | Balance
  | Bet
  | Help
  | Language
  | Lobby
  | Recall
  | RTP
  | ServerTime
  | SessionTime
  | Settings
  | Sound
  | Turbo
  | Social
  | ForWager
  | GameInfo
  | Demo
  | QuickStop
  | KeyboardControls
deriving DecidableEq, Repr

/-! ## JS helpers -/

/-- JS truthiness of an optional string: `undefined`, `null` and `""` are
falsy. -/
def truthyStr : Option String → Bool
  | none => false
  | some s => !s.isEmpty

/-- Models the external builtin `String.prototype.toLowerCase` by a
per-character map (ASCII-faithful). -/
def jsToLower (s : String) : String := String.mk (s.data.map Char.toLower)

/-! ## Launch-config accessors (Game Portal Config Properties) -/

/-- Embeds the `Client` getter: dereferences `clientType` unguarded, so a
`null` `clientType` with a present config raises a `TypeError`. -/
def Client (s : GameSetupState) : Except String ClientType :=
  match s.clientConfig with
  | some c =>
    match c.clientType with
    | some ct => if jsToLower ct = "desktop" then .ok .Desktop else .ok .Mobile
    | none => .error "TypeError: Cannot read properties of null (reading toLowerCase)"
  | none => .ok .Mobile

/-- Embeds the `CurrencyCode` getter. -/
def CurrencyCode (s : GameSetupState) : Except String String :=
  match s.clientConfig with
  | some c => if truthyStr c.currencyCode then .ok (c.currencyCode.getD "") else .ok "USD"
  | none => .ok "USD"

/-- Embeds the `GameStyle` getter (`gameType` is a required string field, so
no throw is possible here). -/
def GameStyle (s : GameSetupState) : Except String GameType :=
  match s.clientConfig with
  | some c => if jsToLower c.gameType = "wager" then .ok .Wager else .ok .Social
  | none => .ok .Social

/-- Embeds the `Jurisdiction` getter: unguarded dereference of the client
config. -/
def Jurisdiction (s : GameSetupState) : Except String String :=
  match s.clientConfig with
  | some c => .ok c.jurisdiction
  | none => .error "TypeError: Cannot read properties of null (reading jurisdiction)"

/-- Embeds the `Recall` getter (`recall != undefined`, loose inequality). -/
def Recall (s : GameSetupState) : Except String Bool :=
  match s.clientConfig with
  | some c => .ok c.«recall».isSome
  | none => .ok false

/-- Embeds the `RGSPort` getter. -/
def RGSPort (s : GameSetupState) : Except String Int :=
  match s.clientConfig with
  | some c => .ok c.serverPort
  | none => .ok 8080

/-- Embeds the `Use12HourClock` getter: remote settings first (when
`use12HourClock != null`), then launch config, then literal `true`. -/
def Use12HourClock (s : GameSetupState) : Except String Bool :=
  match s.rgsConfig with
  | some r =>
    match r.settings with
    | some st =>
      match st.use12HourClock with
      | some b => .ok b
      | none =>
        match s.clientConfig with
        | some c => .ok c.use12HourClock
        | none => .ok true
    | none =>
      match s.clientConfig with
      | some c => .ok c.use12HourClock
      | none => .ok true
  | none =>
    match s.clientConfig with
    | some c => .ok c.use12HourClock
    | none => .ok true

/-- Embeds the `PlatformRecallRoundID` getter. -/
def PlatformRecallRoundID (s : GameSetupState) : Except String (Option String) :=
  match s.clientConfig with
  | some c => .ok c.platformRecallRoundId
  | none => .ok none

/-! ## Remote-config accessors (RGS Client Config Properties) -/

/-- Embeds the `Settings` getter: unguarded dereference of the remote
config. -/
def Settings (s : GameSetupState) : Except String (Option ISettings) :=
  match s.rgsConfig with
  | some r => .ok r.settings
  | none => .error "TypeError: Cannot read properties of null (reading settings)"

/-- Embeds the `BetConfigs` getter: unguarded dereference of the remote
config. -/
def BetConfigs (s : GameSetupState) : Except String (Option (List (String × IBetConfig))) :=
  match s.rgsConfig with
  | some r => .ok r.betConfigs
  | none => .error "TypeError: Cannot read properties of null (reading betConfigs)"

/-- Embeds the `DenomConfigs` getter (null-guarded ternary). -/
def DenomConfigs (s : GameSetupState) : Except String (Option (List (String × IDenomConfig))) :=
  match s.rgsConfig with
  | some r => .ok r.denomConfigs
  | none => .ok none

/-- Embeds the `ServerTime` getter. -/
def ServerTime (s : GameSetupState) : Except String Int :=
  match s.rgsConfig with
  | some r => .ok r.time
  | none => .ok 0

/-- Embeds the `KeyboardEnabled` getter. -/
def KeyboardEnabled (s : GameSetupState) : Except String Bool :=
  match s.rgsConfig with
  | some r =>
    match r.settings with
    | some st => .ok st.keyboardEnabled
    | none => .ok false
  | none => .ok false

/-- Embeds the `QuickStopPermitted` getter. -/
def QuickStopPermitted (s : GameSetupState) : Except String Bool :=
  match s.rgsConfig with
  | some r =>
    match r.settings with
    | some st => .ok st.quickStopEnabled
    | none => .ok true
  | none => .ok true

/-- Embeds the `IsPrizeForceEnabled` getter (pure: every dereference is
guarded). -/
def isPrizeForceEnabledPure (s : GameSetupState) : Bool :=
  match s.rgsConfig with
  | some r =>
    match r.settings with
    | some st => if st.disableDemo = some true then false else st.prizeForceEnabled
    | none => false
  | none => false

/-- The `LastPlayState` getter: `roundStates[0]` when the (always truthy)
array is present, else `previousRoundState || null`.  JS `undefined` from
indexing an empty array and JS `null` are both embedded as `none`. -/
def LastPlayState (s : GameSetupState) : Except String (Option IPlayState) :=
  match s.rgsConfig with
  | some r =>
    match r.roundStates with
    | some l => .ok l.head?
    | none => .ok r.previousRoundState
  | none => .ok none

/-! ## Listener registration -/

/-- Embeds `OnSetupReceived`: push the handler onto the ordered list.
Handlers are identified by reference; the embedding uses `Nat` ids with
reference equality as `Nat` equality. -/
def OnSetupReceived (s : GameSetupState) (handler : Nat) : GameSetupState :=
  { s with onSetupCompleteHandlers := s.onSetupCompleteHandlers ++ [handler] }

/-- Embeds `OffSetupReceived` exactly as written in the source: the handler
list is replaced by `filter (setupHandler => setupHandler === handler)`. -/
def OffSetupReceived (s : GameSetupState) (handler : Nat) : GameSetupState :=
  { s with onSetupCompleteHandlers :=
      s.onSetupCompleteHandlers.filter (fun setupHandler => setupHandler == handler) }

/-! ## Setup-received handler -/

/-- Modelled from the spec: the helper `withValue` (imported from
Utility/Misc, whose source is not under src/) runs its first continuation
when the value is present (not null/undefined) and the fallback, when given,
otherwise; spec section 4.1 step (2) describes exactly this use ("if it
arrives as an encoded string, decode it ...; if absent, inherit it from the
most recent prior play"). -/
def withValue (v : Option α) (f : α → β) (g : Unit → β) : β :=
  match v with
  | some a => f a
  | none => g ()

/-- Embeds `parsePlatformBetOptions` as a function from the setup result to
the updated result plus the emitted error logs.  `this.LastPlayState` is
read after `this._rgsConfig` was assigned `result`, so it resolves against
the incoming result itself. -/
def parsePlatformBetOptions (s : GameSetupState) (setupResult : ISetupResult) :
    ISetupResult × List String :=
  withValue setupResult.platformBetOption
    (fun option =>
      match option with
      | .objVal _ => (setupResult, [])
      | .strVal raw decoded =>
        match decoded with
        | some o => ({ setupResult with platformBetOption := some (.objVal o) }, [])
        | none =>
          (setupResult,
            ["Error parsing bet scalars, string: [" ++ raw ++ "] => error: [parse error]"]))
    (fun _ =>
      match LastPlayState { s with rgsConfig := some setupResult } with
      | .ok (some st) => ({ setupResult with platformBetOption := st.platformBetOption }, [])
      | _ => (setupResult, []))

/-- Observable outcome of one invocation of the setup-received handler: the
post-call component state, the listeners invoked (in order), the error logs
emitted, whether `completeState` was signalled, the value assigned to the
process-wide `CLog.Debug` flag, and the message of a propagated exception
when one was thrown. -/
structure HandlerResult where
  state : GameSetupState
  invoked : List Nat
  logs : List String
  completed : Bool
  debugFlag : Option Bool
  thrown : Option String
deriving DecidableEq, Repr

/-- Embeds `setupReceivedHandler`, step order as in the source: early return
on a null result; store the result as `_rgsConfig`; normalize
`platformBetOption`; validate `denomConfigs` (log and abort when falsy);
fill a missing `settings.uiDisplayOptions` from the editor defaults — when
`settings` itself is null this assignment throws a `TypeError`; invoke the
registered listeners in order; set `CLog.Debug`; complete the trigger state.
(The derived-display recomputation of step (6), `updateObservables`, is
embedded separately as `updateObservablesRtp`.) -/
def setupReceivedHandler (s : GameSetupState) (result : Option ISetupResult) : HandlerResult :=
  match result with
  | none =>
    { state := s, invoked := [], logs := [], completed := false, debugFlag := none,
      thrown := none }
  | some r =>
    let s1 := { s with rgsConfig := some r }
    let parsed := parsePlatformBetOptions s1 r
    let r2 := parsed.1
    let logs1 := parsed.2
    let s2 := { s1 with rgsConfig := some r2 }
    if r2.denomConfigs = none then
      { state := s2, invoked := [], logs := logs1 ++ ["Invalid setup data, cannot proceed."],
        completed := false, debugFlag := none, thrown := none }
    else
      match r2.settings with
      | none =>
        { state := s2, invoked := [], logs := logs1, completed := false, debugFlag := none,
          thrown := some "TypeError: Cannot set properties of null (setting uiDisplayOptions)" }
      | some st =>
        let st2 := { st with uiDisplayOptions := some s.clientDefaultsDisplayOptions }
        let r3 := if st.uiDisplayOptions = none then { r2 with settings := some st2 } else r2
        let s3 := { s2 with rgsConfig := some r3 }
        { state := s3, invoked := s.onSetupCompleteHandlers, logs := logs1,
          completed := true, debugFlag := some (isPrizeForceEnabledPure s3), thrown := none }

/-! ## Previous-result lookup -/

/-- Models the external builtin `JSON.stringify` on a bet-option value by a
concrete injective rendering. -/
def stringifyBetOption : BetOptionValue → String
  | .strVal raw _ => "str(" ++ raw ++ ")"
  | .objVal o => "obj(list=" ++ toString o.list ++ ",defaultMult=" ++ toString o.defaultMult ++ ")"

/-- Models the external builtin `JSON.stringify` on a round-history entry by
a concrete injective rendering of the embedded fields. -/
def stringifyPlayState (p : IPlayState) : String :=
  "playState(playId=" ++ toString p.playResult.playId
    ++ ",seq=" ++ toString p.playResult.PlaySequenceNumber
    ++ ",idx=" ++ toString p.playResult.GamePlayIndex
    ++ ",pbo=" ++ (match p.platformBetOption with
                   | none => "none"
                   | some b => stringifyBetOption b) ++ ")"

/-- The error message logged by `GetPreviousResult` when no entry matches. -/
def noMatchLog (roundId playId : Int) : String :=
  "Tried to get a previous result, but no roundState found for round "
    ++ toString roundId ++ ", play " ++ toString playId ++ ". Reverting to latest."

/-- Embeds `GetPreviousResult`.  The value is the returned string (`none`
embeds both the explicit `null` return and `JSON.stringify(undefined)`),
paired with the error logs emitted.  The `forEach` search keeps overwriting
`foundRound`, so the last matching entry wins; with no match it falls back
to `LastPlayState` (= `roundStates[0]` here, the array being present and
truthy).  The unguarded `this._rgsConfig.roundStates` read throws when the
remote config is absent. -/
def GetPreviousResult (s : GameSetupState) (roundId playId : Int) :
    Except String (Option String × List String) :=
  match s.rgsConfig with
  | none => .error "TypeError: Cannot read properties of null (reading roundStates)"
  | some r =>
    match r.roundStates with
    | none => .ok (none, ["Tried to get a previous result, but no roundStates found"])
    | some rs =>
      let foundRound := rs.foldl
        (fun acc round =>
          if round.playResult.PlaySequenceNumber = roundId
              ∧ round.playResult.GamePlayIndex = playId
          then some round else acc) none
      match foundRound with
      | some p => .ok (some (stringifyPlayState p), [])
      | none => .ok (rs.head?.map stringifyPlayState, [noMatchLog roundId playId])

/-! ## Lobby URL and web-view detection -/

/-- Embeds `HasLobbyURL`; the second branch dereferences
`this._rgsConfig.settings` unguarded. -/
def HasLobbyURL (s : GameSetupState) : Except String Bool :=
  if (match s.clientConfig with | some c => truthyStr c.lobbyUrl | none => false) then .ok true
  else
    match s.rgsConfig with
    | some r =>
      match r.settings with
      | some st => .ok (truthyStr st.lobbyUrl)
      | none => .error "TypeError: Cannot read properties of null (reading lobbyUrl)"
    | none => .ok false

/-- Prefix test on character lists (helper for the regex models). -/
def listStartsWith : List Char → List Char → Bool
  | [], _ => true
  | _ :: _, [] => false
  | p :: ps, c :: cs => p == c && listStartsWith ps cs

/-- Substring test on character lists; models a plain-text regex `test`. -/
def listContainsSub (pat : List Char) : List Char → Bool
  | [] => listStartsWith pat []
  | c :: cs => listStartsWith pat (c :: cs) || listContainsSub pat cs

/-- Consumes leading ASCII digits (helper for the regex model). -/
def dropWhileDigits : List Char → List Char
  | c :: cs => if c.isDigit then dropWhileDigits cs else c :: cs
  | [] => []

/-- Consumes one or more ASCII digits; `none` when the head is not a digit
(helper for the chrome-webview regex model). -/
def dropDigits1 : List Char → Option (List Char)
  | c :: cs => if c.isDigit then some (dropWhileDigits cs) else none
  | [] => none

/-- Matches the tail `chrome\/\d+\.\d+\.\d+\.\d+` of the web-view regex at
the head of the list. -/
def chromeVerAt (l : List Char) : Bool :=
  if listStartsWith "chrome/".toList l then
    match dropDigits1 (l.drop 7) with
    | some r1 =>
      match r1 with
      | '.' :: r1x =>
        match dropDigits1 r1x with
        | some r2 =>
          match r2 with
          | '.' :: r2x =>
            match dropDigits1 r2x with
            | some r3 =>
              match r3 with
              | '.' :: r3x => (dropDigits1 r3x).isSome
              | _ => false
            | none => false
          | _ => false
        | none => false
      | _ => false
    | none => false
  else false

/-- Any-suffix test: a regex `test` is an anywhere-match. -/
def existsSuffix (p : List Char → Bool) : List Char → Bool
  | [] => p []
  | c :: cs => p (c :: cs) || existsSuffix p cs

/-- Models the regex test `version\/.+(chrome)\/(\d+)\.(\d+)\.(\d+)\.(\d+)`:
some position matches `version/`, and at least one character further on the
`chrome/` version pattern occurs. -/
def testChromeWebView (ua : String) : Bool :=
  existsSuffix
    (fun t => listStartsWith "version/".toList t && existsSuffix chromeVerAt (t.drop 9))
    ua.toList

/-- Embeds `IsWebView` (user-agent sniffing; the regex tests on the
lower-cased agent are modelled by the functions above). -/
def IsWebView (s : GameSetupState) : Bool :=
  let ua := jsToLower s.userAgent
  let safari := listContainsSub "safari".toList ua.toList
  let ios := listContainsSub "iphone".toList ua.toList
          || listContainsSub "ipod".toList ua.toList
          || listContainsSub "ipad".toList ua.toList
  if ios then !safari else testChromeWebView ua

/-! ## Display-policy decision table -/

/-- Embeds `ShouldDisplay`: short-circuits to `false` when the remote
config, its settings or the display options are absent; otherwise the
per-key decision table of the source. -/
def ShouldDisplay (s : GameSetupState) (key : DisplayKey) : Except String Bool :=
  match s.rgsConfig with
  | none => .ok false
  | some r =>
    match r.settings with
    | none => .ok false
    | some st =>
      match st.uiDisplayOptions with
      | none => .ok false
      | some ui =>
        match key with
        | .AutoSpin => .ok (ui.autoSpin.type != "none")
        | .Balance => .ok ui.balance
        | .Bet => .ok ui.bet
        | .Help => .ok ui.help
        | .Language => .ok ui.language
        | .Lobby =>
          match (if ui.lobby then HasLobbyURL s else .ok false) with
          | .error e => .error e
          | .ok displayLobby =>
            if displayLobby then
              if ui.lobbyExclusion = "web" then
                .ok (if IsWebView s = false then false else true)
              else if ui.lobbyExclusion = "webview" then
                .ok (if IsWebView s = true then false else true)
              else .ok true
            else .ok false
        | .Recall => .ok ui.«recall».enabled
        | .RTP => .ok ui.rtp
        | .ServerTime =>
          match Recall s with
          | .ok rec => .ok (ui.serverTime && !rec)
          | .error e => .error e
        | .SessionTime =>
          match Recall s with
          | .ok rec => .ok (ui.sessionTime && !rec)
          | .error e => .error e
        | .Settings => .ok ui.settings
        | .Sound => .ok ui.sound
        | .Turbo =>
          match QuickStopPermitted s with
          | .ok q => .ok (ui.turbo && q)
          | .error e => .error e
        | .Social =>
          match GameStyle s with
          | .ok g => .ok (g == GameType.Social)
          | .error e => .error e
        | .ForWager =>
          match GameStyle s with
          | .ok g => .ok (g == GameType.Wager)
          | .error e => .error e
        | .GameInfo =>
          match Recall s with
          | .ok rec => .ok (ui.gameName && !rec)
          | .error e => .error e
        | .Demo =>
          match Recall s with
          | .ok rec => .ok (isPrizeForceEnabledPure s && !rec)
          | .error e => .error e
        | .QuickStop => QuickStopPermitted s
        | .KeyboardControls => KeyboardEnabled s

/-! ## Derived RTP display value (`updateObservables`) -/

/-- Models the external builtin `Number.prototype.toFixed(2)` on exact
rationals, following the ECMAScript algorithm: sign first, then the integer
closest to `|q| * 100` (ties pick the larger), rendered with two decimal
places. -/
def toFixed2 (q : Rat) : String :=
  let sign := if q < 0 then "-" else ""
  let n : Int := Rat.floor (|q| * 100 + 1 / 2)
  let m := n.toNat
  let ip := m / 100
  let fp := m % 100
  sign ++ toString ip ++ "." ++ (if fp < 10 then "0" ++ toString fp else toString fp)

/-- Models the external builtin `Array.prototype.sort((a, b) => a - b)`: an
ascending sort. -/
def jsSortAsc (l : List Rat) : List Rat :=
  List.insertionSort (· ≤ ·) l

/-- JS numeric value occurring in the RTP computation: `null`, `undefined`,
or a number. -/
inductive JVal where
  | null
  | undef
  | num (q : Rat)
deriving DecidableEq, Repr

/-- JS `<` on the values occurring in the RTP loop: comparisons with
`undefined` are `NaN` comparisons, hence false; `null` coerces to `0`. -/
def jsLt : JVal → JVal → Bool
  | .num a, .num b => a < b
  | .null, .num b => 0 < b
  | .num a, .null => a < 0
  | .null, .null => false
  | .undef, _ => false
  | _, .undef => false

/-- JS `>` via `jsLt`. -/
def jsGt (a b : JVal) : Bool := jsLt b a

/-- JS truthiness of such a value (`0`, `null`, `undefined` are falsy). -/
def jsTruthyJ : JVal → Bool
  | .num q => q != 0
  | _ => false

/-- JS `array[0]` (possibly `undefined`). -/
def headJ (l : List Rat) : JVal :=
  match l.head? with
  | none => .undef
  | some a => .num a

/-- JS `array[array.length - 1]` (possibly `undefined`). -/
def lastJ (l : List Rat) : JVal :=
  match l.getLast? with
  | none => .undef
  | some a => .num a

/-- One iteration of the `for ... in` loop over the denom configs in
`updateObservables`: skip configs without an `rtp` array, sort the array
ascending, take its ends, and accumulate the running low/high. -/
def rtpFoldStep (acc : JVal × JVal × Bool) (entry : String × IDenomConfig) :
    JVal × JVal × Bool :=
  match entry.2.rtp with
  | none => acc
  | some l =>
    let rtps := jsSortAsc l
    let newLow := headJ rtps
    let newHigh := lastJ rtps
    match acc with
    | (low, high, first) =>
      if first then (newLow, newHigh, false)
      else
        ((if jsLt newLow low then newLow else low),
         (if jsGt newHigh high then newHigh else high), false)

/-- The `if (low) low = low / 100` division step. -/
def scaleJ : JVal → JVal
  | .num q => .num (q / 100)
  | v => v

/-- JS strict inequality `!==` on such values. -/
def jsStrictNeq : JVal → JVal → Bool
  | .num a, .num b => a != b
  | .null, .null => false
  | .undef, .undef => false
  | _, _ => true

/-- The fixed-format single-value fallback string of `updateObservables`. -/
def rtpSingle (x : Rat) : String := "RTP " ++ toFixed2 x ++ "%"

/-- The fixed-format range fallback string of `updateObservables`. -/
def rtpRange (x y : Rat) : String := "RTP " ++ toFixed2 x ++ "% - " ++ toFixed2 y ++ "%"

/-- Embeds the RTP-range part of `updateObservables`, given the denom-config
map (the enclosing guard requires the display observable to be injected and
`DenomConfigs` to be non-null).  The localization collaborator is modelled
as unavailable, so the fixed-format fallback strings are produced (the
collaborator branch passes the same two formatted percentages to an external
resource lookup).  The result is the value written to the observable plus
the emitted logs; `.error` embeds the `TypeError` of calling `toFixed` on a
non-number. -/
def updateObservablesRtp (dcs : List (String × IDenomConfig)) :
    Except String (String × List String) :=
  let res := dcs.foldl rtpFoldStep (JVal.null, JVal.null, true)
  let low0 := res.1
  let high0 := res.2.1
  let low1 := if jsTruthyJ low0 then scaleJ low0 else low0
  let high1 := if jsTruthyJ high0 then scaleJ high0 else high0
  match low1 with
  | .undef => .ok ("", ["No RTP configured for game."])
  | .null => .ok ("", ["No RTP configured for game."])
  | .num lo =>
    if jsStrictNeq (JVal.num lo) high1 then
      match high1 with
      | .num hi => .ok (rtpRange lo hi, [])
      | _ => .error "TypeError: Cannot read properties of undefined (reading toFixed)"
    else .ok (rtpSingle lo, [])

/-- Global minimum of a list of rationals (specification helper). -/
def listMinQ : List Rat → Option Rat
  | [] => none
  | a :: as => some (as.foldl min a)

/-- Global maximum of a list of rationals (specification helper). -/
def listMaxQ : List Rat → Option Rat
  | [] => none
  | a :: as => some (as.foldl max a)

/-- The RTP arrays defined across the denom configs. -/
def definedRtps (dcs : List (String × IDenomConfig)) : List (List Rat) :=
  dcs.filterMap (fun p => p.2.rtp)

/-- All RTP values across all defined RTP arrays. -/
def allRtpVals (dcs : List (String × IDenomConfig)) : List Rat :=
  (definedRtps dcs).flatten

/-- The remote-layer `use12HourClock` value (specification helper for the
precedence statements). -/
def remoteUse12 (s : GameSetupState) : Option Bool :=
  s.rgsConfig.bind (fun r => r.settings.bind (fun st => st.use12HourClock))

/-! ## Concrete fixtures -/

/-- Editor-default display options: the field values of the `DisplayOptions`
editor class of src/testing.ts. -/
def editorDefaultDisplayOptions : IDisplayOptions :=
  { autoSpin := { type := "standard", options := [10, 25, 50, 100, 200], max := 200 },
    balance := false, bet := false, gameName := false, help := false, language := false,
    lobby := false, lobbyExclusion := "",
    «recall» := { enabled := true, history := 10 },
    rtp := false, serverTime := false, sessionTime := false, settings := false,
    sound := false, turbo := false }

/-- A well-formed launch config used by the concrete evaluations. -/
def baseClientConfig : IClientConfig :=
  { gameId := "game", platformId := "platform", serverHost := "host", serverPort := 9090,
    rgsVersion := "1.0.0", operatorId := some "operator_everi", gameType := "wager",
    clientType := some "mobile", locale := some "en_US", currencyCode := some "USD",
    userId := "user", userToken := "token", use12HourClock := true, version := "0.0.0",
    «recall» := none, jurisdiction := "everi", lobbyUrl := none, rgsUser := none,
    rgsSession := none, platformRecallRoundId := none, clientconfig := none }

/-- A minimal settings record used by the concrete evaluations. -/
def baseSettings : ISettings :=
  { use12HourClock := none, uiDisplayOptions := none, juris := none, lobbyUrl := none,
    lobbyWindowDepth := none, keyboardEnabled := false, minimumSpinDelay := 0,
    disableDemo := none, prizeForceEnabled := false, quickStopEnabled := true,
    wagerDisplay := none }

/-- A minimal setup result used by the concrete evaluations. -/
def baseSetupResult : ISetupResult :=
  { settings := some baseSettings, denomConfigs := some [], betConfigs := none,
    roundStates := none, previousRoundState := none, defaultBet := none, time := 0,
    activeDenom := 1, platformBetOption := none, rgsTzOffset := 0, version := 1 }

/-- Component state right after `onLoad`: launch config present, no remote
config received yet. -/
def baseState : GameSetupState :=
  { clientConfig := some baseClientConfig, rgsConfig := none,
    clientDefaultsDisplayOptions := editorDefaultDisplayOptions,
    onSetupCompleteHandlers := [], userAgent := "mozilla" }

/-- Launch config whose 12-hour-clock flag is `false`. -/
def clientConfig12 : IClientConfig := { baseClientConfig with use12HourClock := false }

/-- Remote settings carrying `use12HourClock = true`. -/
def settings12 : ISettings := { baseSettings with use12HourClock := some true }

/-- Setup result carrying those settings. -/
def setupResult12 : ISetupResult := { baseSetupResult with settings := some settings12 }

/-- State where the launch layer supplies `use12HourClock = false` and the
remote layer supplies `true`. -/
def state12 : GameSetupState :=
  { baseState with clientConfig := some clientConfig12, rgsConfig := some setupResult12 }

/-- Launch config whose `clientType` is null (allowed by its interface). -/
def clientConfigNullCT : IClientConfig := { baseClientConfig with clientType := none }

/-- State with that launch config. -/
def stateNullCT : GameSetupState := { baseState with clientConfig := some clientConfigNullCT }

/-- Launch config with a mixed-case desktop `clientType`. -/
def clientConfigDesktop : IClientConfig := { baseClientConfig with clientType := some "Desktop" }

/-- State with the desktop launch config. -/
def stateDesktop : GameSetupState := { baseState with clientConfig := some clientConfigDesktop }

/-- Setup result with `denomConfigs` absent. -/
def setupNoDenoms : ISetupResult := { baseSetupResult with denomConfigs := none }

/-- Setup result with `denomConfigs` absent and a recognizable timestamp. -/
def setupNoDenoms42 : ISetupResult := { setupNoDenoms with time := 42 }

/-- State with one registered setup-complete listener. -/
def stateWithListener : GameSetupState := { baseState with onSetupCompleteHandlers := [7] }

/-- Setup result with `denomConfigs` present but a null `settings`
sub-record. -/
def setupNoSettings : ISetupResult :=
  { baseSetupResult with
    settings := none
    denomConfigs := some [("1", { rtp := some [9500] })] }

/-- Settings whose display options set the lobby flag while no lobby URL is
available anywhere. -/
def settingsLobbyFlag : ISettings :=
  { baseSettings with
    uiDisplayOptions := some ({ editorDefaultDisplayOptions with lobby := true }) }

/-- Setup result with those settings. -/
def setupLobbyFlag : ISetupResult := { baseSetupResult with settings := some settingsLobbyFlag }

/-- State with the lobby flag set but no lobby URL resolvable. -/
def stateLobbyFlag : GameSetupState := { baseState with rgsConfig := some setupLobbyFlag }

/-- A prior play with sequence number 4, play index 0. -/
def playA : IPlayState :=
  { playResult := { playId := 1, PlaySequenceNumber := 4, GamePlayIndex := 0 },
    platformBetOption := none }

/-- A prior play with sequence number 5, play index 2. -/
def playB : IPlayState :=
  { playResult := { playId := 2, PlaySequenceNumber := 5, GamePlayIndex := 2 },
    platformBetOption := none }

/-- Setup result with a two-entry round history. -/
def setupRounds : ISetupResult := { baseSetupResult with roundStates := some [playA, playB] }

/-- State with that round history received. -/
def stateRounds : GameSetupState := { baseState with rgsConfig := some setupRounds }

/-- Denom configs where the first-iterated config defines an empty RTP array
and a later one defines the value 300. -/
def cexDenoms : List (String × IDenomConfig) :=
  [("a", { rtp := some [] }), ("b", { rtp := some [300] })]

/-- Denom configs with two overlapping nonempty RTP arrays. -/
def witDenoms : List (String × IDenomConfig) :=
  [("1", { rtp := some [9000, 9500] }), ("2", { rtp := some [9200, 9600] })]

/-! ## C7: listener removal -/

/-- C7 (code evaluated at the failing input): with handlers 0 and then 1
registered, `OffSetupReceived 0` KEEPS handler 0 and removes handler 1 —
the source's filter predicate keeps exactly the elements strictly equal to
the argument, the opposite of removal, so the other handlers are lost. -/
theorem offSetupReceived_keeps_only_target :
    (OffSetupReceived (OnSetupReceived (OnSetupReceived baseState 0) 1) 0).onSetupCompleteHandlers
      = [0] := by
  rfl

/-! ## C9: client-type resolution -/

/-- C9 counterexample: with the launch config present but `clientType` null
(a value its interface allows), `Client` throws a `TypeError` instead of
returning `Mobile` as the claim requires for every non-desktop value. -/
theorem client_nullClientType_throws :
    Client stateNullCT
        = Except.error "TypeError: Cannot read properties of null (reading toLowerCase)"
      ∧ Client stateNullCT ≠ Except.ok ClientType.Mobile := by
  refine ⟨rfl, fun h => ?_⟩
  exact Except.noConfusion h

/-- C9 amended: `Client` resolves a present, non-null `clientType` that
lower-cases to "desktop" to Desktop and any other non-null value to Mobile;
an absent launch config resolves to Mobile; a null `clientType` with a
present config throws a `TypeError`. -/
theorem client_resolution_amended :
    (∀ s c ct, s.clientConfig = some c → c.clientType = some ct → jsToLower ct = "desktop" →
        Client s = .ok ClientType.Desktop)
    ∧ (∀ s c ct, s.clientConfig = some c → c.clientType = some ct → jsToLower ct ≠ "desktop" →
        Client s = .ok ClientType.Mobile)
    ∧ (∀ s, s.clientConfig = none → Client s = .ok ClientType.Mobile)
    ∧ (∀ s c, s.clientConfig = some c → c.clientType = none →
        Client s = .error "TypeError: Cannot read properties of null (reading toLowerCase)") := by
  refine ⟨?_, ?_, ?_, ?_⟩
  · intro s c ct hs hc hd
    simp [Client, hs, hc, hd]
  · intro s c ct hs hc hd
    simp [Client, hs, hc, hd]
  · intro s hs
    simp [Client, hs]
  · intro s c hs hc
    simp [Client, hs, hc]

/-- C9 witness: the amended resolution evaluated at concrete states. -/
theorem client_resolution_amended_witness :
    Client stateDesktop = .ok ClientType.Desktop ∧ Client baseState = .ok ClientType.Mobile := by
  constructor
  · exact client_resolution_amended.1 stateDesktop clientConfigDesktop "Desktop" rfl rfl (by decide)
  · exact client_resolution_amended.2.1 baseState baseClientConfig "mobile" rfl rfl (by decide)

/-! ## C1: three-tier precedence -/

/-- C1 counterexample: the launch layer supplies a present value
(`use12HourClock = false`), a remote value `true` has been received, and
the accessor returns the REMOTE value — `Use12HourClock` checks the remote
layer before the launch layer, contradicting the claimed launch-first
order. -/
theorem use12HourClock_remote_overrides_launch :
    clientConfig12.use12HourClock = false
      ∧ remoteUse12 state12 = some true
      ∧ Use12HourClock state12 = Except.ok true :=
  ⟨rfl, rfl, rfl⟩

/-- C1 amended: the per-field precedence the code actually implements.
`Use12HourClock` prefers the remote settings value when present (non-null),
then the launch value, then `true`; `CurrencyCode` has no remote tier (the
launch value when present and non-empty, else "USD"); `RGSPort` has no
remote tier and no emptiness check (the launch `serverPort` whenever a
launch config is present, else 8080). -/
theorem threeTier_precedence_amended :
    (∀ s b, remoteUse12 s = some b → Use12HourClock s = .ok b)
    ∧ (∀ s c, remoteUse12 s = none → s.clientConfig = some c →
        Use12HourClock s = .ok c.use12HourClock)
    ∧ (∀ s, remoteUse12 s = none → s.clientConfig = none → Use12HourClock s = .ok true)
    ∧ (∀ s c cc, s.clientConfig = some c → c.currencyCode = some cc → cc ≠ "" →
        CurrencyCode s = .ok cc)
    ∧ (∀ s c, s.clientConfig = some c → (c.currencyCode = none ∨ c.currencyCode = some "") →
        CurrencyCode s = .ok "USD")
    ∧ (∀ s, s.clientConfig = none → CurrencyCode s = .ok "USD")
    ∧ (∀ s c, s.clientConfig = some c → RGSPort s = .ok c.serverPort)
    ∧ (∀ s, s.clientConfig = none → RGSPort s = .ok 8080) := by
  refine ⟨?_, ?_, ?_, ?_, ?_, ?_, ?_, ?_⟩
  · intro s b h
    cases hr : s.rgsConfig with
    | none => rw [remoteUse12, hr] at h; simp at h
    | some r =>
      cases hst : r.settings with
      | none => rw [remoteUse12, hr] at h; simp [hst] at h
      | some st =>
        rw [remoteUse12, hr] at h
        simp only [Option.some_bind, hst] at h
        simp [Use12HourClock, hr, hst, h]
  · intro s c h hc
    cases hr : s.rgsConfig with
    | none => simp [Use12HourClock, hr, hc]
    | some r =>
      cases hst : r.settings with
      | none => simp [Use12HourClock, hr, hst, hc]
      | some st =>
        rw [remoteUse12, hr] at h
        simp only [Option.some_bind, hst] at h
        simp [Use12HourClock, hr, hst, hc, h]
  · intro s h hc
    cases hr : s.rgsConfig with
    | none => simp [Use12HourClock, hr, hc]
    | some r =>
      cases hst : r.settings with
      | none => simp [Use12HourClock, hr, hst, hc]
      | some st =>
        rw [remoteUse12, hr] at h
        simp only [Option.some_bind, hst] at h
        simp [Use12HourClock, hr, hst, hc, h]
  · intro s c cc hs hc hne
    have hemp : cc.isEmpty = false := by
      cases hcc : cc.isEmpty
      · rfl
      · exact absurd ((String.isEmpty_iff cc).mp hcc) hne
    simp [CurrencyCode, hs, hc, truthyStr, hemp]
  · intro s c hs hc
    rcases hc with h | h
    · simp [CurrencyCode, hs, h, truthyStr]
    · simp [CurrencyCode, hs, h, truthyStr]
      decide
  · intro s hs
    simp [CurrencyCode, hs]
  · intro s c hs
    simp [RGSPort, hs]
  · intro s hs
    simp [RGSPort, hs]

/-- C1 witness: the amended precedence evaluated at concrete states. -/
theorem threeTier_precedence_amended_witness :
    Use12HourClock state12 = .ok true
      ∧ CurrencyCode baseState = .ok "USD"
      ∧ RGSPort baseState = .ok 9090 := by
  refine ⟨threeTier_precedence_amended.1 state12 true rfl, ?_, ?_⟩
  · exact threeTier_precedence_amended.2.2.2.1 baseState baseClientConfig "USD" rfl rfl
      (by decide)
  · exact threeTier_precedence_amended.2.2.2.2.2.2.1 baseState baseClientConfig rfl

/-! ## C6: exception behavior of the accessors -/

/-- C6 counterexample: in the ordinary post-`onLoad` state where the remote
config has not yet been received, the public `Settings` accessor propagates
a thrown `TypeError` to the caller instead of returning normally. -/
theorem settings_throws_before_setup :
    baseState.rgsConfig = none
      ∧ Settings baseState
          = Except.error "TypeError: Cannot read properties of null (reading settings)" :=
  ⟨rfl, rfl⟩

/-- C6 amended: accessors that guard their config layer (`CurrencyCode`,
`RGSPort`, `Use12HourClock`, `DenomConfigs`, ...) return normally in every
state, but `Settings`, `BetConfigs` and `GetPreviousResult` throw a
`TypeError` whenever the remote config has not been received, and
`Jurisdiction` throws when the launch config is absent — exceptions do
cross the component boundary. -/
theorem accessor_exception_behavior :
    (∀ s, ∃ v, CurrencyCode s = .ok v)
    ∧ (∀ s, ∃ v, RGSPort s = .ok v)
    ∧ (∀ s, ∃ v, Use12HourClock s = .ok v)
    ∧ (∀ s, ∃ v, DenomConfigs s = .ok v)
    ∧ (∀ s, s.rgsConfig = none → ∃ m, Settings s = .error m)
    ∧ (∀ s, s.rgsConfig = none → ∃ m, BetConfigs s = .error m)
    ∧ (∀ s rid pid, s.rgsConfig = none → ∃ m, GetPreviousResult s rid pid = .error m)
    ∧ (∀ s, s.clientConfig = none → ∃ m, Jurisdiction s = .error m) := by
  refine ⟨?_, ?_, ?_, ?_, ?_, ?_, ?_, ?_⟩
  · intro s
    cases hs : s.clientConfig with
    | none => exact ⟨"USD", by simp [CurrencyCode, hs]⟩
    | some c =>
      by_cases ht : truthyStr c.currencyCode
      · exact ⟨c.currencyCode.getD "", by simp [CurrencyCode, hs, ht]⟩
      · exact ⟨"USD", by simp [CurrencyCode, hs, ht]⟩
  · intro s
    cases hs : s.clientConfig with
    | none => exact ⟨8080, by simp [RGSPort, hs]⟩
    | some c => exact ⟨c.serverPort, by simp [RGSPort, hs]⟩
  · intro s
    cases hb : remoteUse12 s with
    | some b => exact ⟨b, threeTier_precedence_amended.1 s b hb⟩
    | none =>
      cases hs : s.clientConfig with
      | none => exact ⟨true, threeTier_precedence_amended.2.2.1 s hb hs⟩
      | some c => exact ⟨c.use12HourClock, threeTier_precedence_amended.2.1 s c hb hs⟩
  · intro s
    cases hr : s.rgsConfig with
    | none => exact ⟨none, by simp [DenomConfigs, hr]⟩
    | some r => exact ⟨r.denomConfigs, by simp [DenomConfigs, hr]⟩
  · intro s hr
    exact ⟨"TypeError: Cannot read properties of null (reading settings)",
      by simp [Settings, hr]⟩
  · intro s hr
    exact ⟨"TypeError: Cannot read properties of null (reading betConfigs)",
      by simp [BetConfigs, hr]⟩
  · intro s rid pid hr
    exact ⟨"TypeError: Cannot read properties of null (reading roundStates)",
      by simp [GetPreviousResult, hr]⟩
  · intro s hs
    exact ⟨"TypeError: Cannot read properties of null (reading jurisdiction)",
      by simp [Jurisdiction, hs]⟩

/-- C6 witness: the amended exception behavior evaluated at a concrete
state. -/
theorem accessor_exception_behavior_witness :
    (∃ v, CurrencyCode baseState = .ok v)
      ∧ (∃ m, Settings baseState = .error m)
      ∧ (∃ m, GetPreviousResult baseState 1 1 = .error m) :=
  ⟨accessor_exception_behavior.1 baseState,
    accessor_exception_behavior.2.2.2.2.1 baseState rfl,
    accessor_exception_behavior.2.2.2.2.2.2.1 baseState 1 1 rfl⟩

/-! ## C2, C10, C4: the setup-received handler -/

/-- Normalization only rewrites the `platformBetOption` field: the fields
relevant to validation and to the accessors are preserved. -/
theorem parsePlatformBetOptions_fields (s : GameSetupState) (r : ISetupResult) :
    ((parsePlatformBetOptions s r).1).denomConfigs = r.denomConfigs
      ∧ ((parsePlatformBetOptions s r).1).settings = r.settings
      ∧ ((parsePlatformBetOptions s r).1).time = r.time := by
  unfold parsePlatformBetOptions withValue
  cases hb : r.platformBetOption with
  | none =>
    cases LastPlayState { s with rgsConfig := some r } with
    | error e => exact ⟨rfl, rfl, rfl⟩
    | ok o =>
      cases o with
      | none => exact ⟨rfl, rfl, rfl⟩
      | some st => exact ⟨rfl, rfl, rfl⟩
  | some v =>
    cases v with
    | objVal o => exact ⟨rfl, rfl, rfl⟩
    | strVal raw decoded =>
      cases decoded with
      | none => exact ⟨rfl, rfl, rfl⟩
      | some o => exact ⟨rfl, rfl, rfl⟩

/-- C2: a non-null setup result without `denomConfigs` makes the handler log
the invalid-setup error and return (without throwing), invoking no listener
and not signalling completion of the trigger state. -/
theorem setup_missing_denomConfigs_aborts (s : GameSetupState) (r : ISetupResult)
    (h : r.denomConfigs = none) :
    (setupReceivedHandler s (some r)).invoked = []
      ∧ (setupReceivedHandler s (some r)).completed = false
      ∧ "Invalid setup data, cannot proceed." ∈ (setupReceivedHandler s (some r)).logs
      ∧ (setupReceivedHandler s (some r)).thrown = none := by
  have hd : (parsePlatformBetOptions { s with rgsConfig := some r } r).1.denomConfigs = none :=
    ((parsePlatformBetOptions_fields { s with rgsConfig := some r } r).1).trans h
  refine ⟨?_, ?_, ?_, ?_⟩ <;> simp [setupReceivedHandler, hd]

/-- C2 witness: the abort behavior evaluated at a concrete state with one
registered listener and a concrete invalid result. -/
theorem setup_missing_denomConfigs_aborts_witness :
    (setupReceivedHandler stateWithListener (some setupNoDenoms)).invoked = []
      ∧ (setupReceivedHandler stateWithListener (some setupNoDenoms)).completed = false
      ∧ "Invalid setup data, cannot proceed."
          ∈ (setupReceivedHandler stateWithListener (some setupNoDenoms)).logs
      ∧ (setupReceivedHandler stateWithListener (some setupNoDenoms)).thrown = none :=
  setup_missing_denomConfigs_aborts stateWithListener setupNoDenoms rfl

/-- C10: the handler stores the bet-option-normalized result as `_rgsConfig`
before the `denomConfigs` validation, so after an aborted (invalid) setup
the accessors read the invalid payload rather than the prior remote
config. -/
theorem setup_stores_before_validation (s : GameSetupState) (r : ISetupResult)
    (h : r.denomConfigs = none) :
    (setupReceivedHandler s (some r)).state.rgsConfig
        = some (parsePlatformBetOptions { s with rgsConfig := some r } r).1
      ∧ ServerTime (setupReceivedHandler s (some r)).state = .ok r.time
      ∧ DenomConfigs (setupReceivedHandler s (some r)).state = .ok none
      ∧ Settings (setupReceivedHandler s (some r)).state = .ok r.settings := by
  have hf := parsePlatformBetOptions_fields { s with rgsConfig := some r } r
  have hd : (parsePlatformBetOptions { s with rgsConfig := some r } r).1.denomConfigs = none :=
    hf.1.trans h
  refine ⟨?_, ?_, ?_, ?_⟩
  · simp [setupReceivedHandler, hd]
  · simp [setupReceivedHandler, hd, ServerTime, hf.2.2]
  · simp [setupReceivedHandler, hd, DenomConfigs]
  · simp [setupReceivedHandler, hd, Settings, hf.2.1]

/-- C10 witness: the stored-before-validation behavior evaluated at a
concrete invalid result with timestamp 42. -/
theorem setup_stores_before_validation_witness :
    (setupReceivedHandler baseState (some setupNoDenoms42)).state.rgsConfig
        = some (parsePlatformBetOptions { baseState with rgsConfig := some setupNoDenoms42 }
            setupNoDenoms42).1
      ∧ ServerTime (setupReceivedHandler baseState (some setupNoDenoms42)).state = .ok 42
      ∧ DenomConfigs (setupReceivedHandler baseState (some setupNoDenoms42)).state = .ok none
      ∧ Settings (setupReceivedHandler baseState (some setupNoDenoms42)).state
          = .ok setupNoDenoms42.settings :=
  setup_stores_before_validation baseState setupNoDenoms42 rfl

/-- C4 (code evaluated at the failing input): a result that passes the
`denomConfigs` validation but carries a null `settings` makes the handler
throw a `TypeError` while assigning `settings.uiDisplayOptions`; no listener
is invoked, completion is never signalled, and the stored remote config
keeps `settings = null` — the claimed synthesis of `uiDisplayOptions` from
the editor defaults never happens in this case. -/
theorem setup_nullSettings_throws :
    (setupReceivedHandler stateWithListener (some setupNoSettings)).thrown
        = some "TypeError: Cannot set properties of null (setting uiDisplayOptions)"
      ∧ (setupReceivedHandler stateWithListener (some setupNoSettings)).invoked = []
      ∧ (setupReceivedHandler stateWithListener (some setupNoSettings)).completed = false
      ∧ ((setupReceivedHandler stateWithListener (some setupNoSettings)).state.rgsConfig.map
          ISetupResult.settings) = some none :=
  ⟨rfl, rfl, rfl, rfl⟩

/-! ## C8: lobby display needs a resolvable URL -/

/-- C8: whenever no lobby URL is resolvable (`HasLobbyURL` returns false),
`ShouldDisplay` for the Lobby key returns false, whatever the value of the
lobby display-option flag. -/
theorem shouldDisplay_lobby_needs_url (s : GameSetupState)
    (h : HasLobbyURL s = .ok false) :
    ShouldDisplay s .Lobby = .ok false := by
  unfold ShouldDisplay
  cases hr : s.rgsConfig with
  | none => rfl
  | some r =>
    cases hst : r.settings with
    | none => simp [hst]
    | some st =>
      cases hui : st.uiDisplayOptions with
      | none => simp [hst, hui]
      | some ui =>
        by_cases hl : ui.lobby
        · simp [hst, hui, hl, h]
        · simp [hst, hui, hl]

/-- C8 witness: evaluated at a state whose display options set the lobby
flag while no lobby URL is available in either layer. -/
theorem shouldDisplay_lobby_needs_url_witness :
    HasLobbyURL stateLobbyFlag = .ok false
      ∧ ShouldDisplay stateLobbyFlag .Lobby = .ok false :=
  ⟨rfl, shouldDisplay_lobby_needs_url stateLobbyFlag rfl⟩

/-! ## C3: previous-result lookup -/

/-- The `forEach` accumulator is returned unchanged when no entry matches. -/
theorem foldl_found_none (roundId playId : Int) (rs : List IPlayState)
    (acc : Option IPlayState)
    (h : ∀ p ∈ rs, ¬(p.playResult.PlaySequenceNumber = roundId
        ∧ p.playResult.GamePlayIndex = playId)) :
    rs.foldl
      (fun acc round =>
        if round.playResult.PlaySequenceNumber = roundId
            ∧ round.playResult.GamePlayIndex = playId
        then some round else acc) acc = acc := by
  induction rs generalizing acc with
  | nil => rfl
  | cons a as ih =>
    rw [List.foldl_cons, if_neg (h a (List.mem_cons_self a as))]
    exact ih acc (fun p hp => h p (List.mem_cons_of_mem a hp))

/-- The `forEach` accumulator holds a matching entry when one exists. -/
theorem foldl_found_some (roundId playId : Int) (rs : List IPlayState)
    (acc : Option IPlayState)
    (h : ∃ p ∈ rs, p.playResult.PlaySequenceNumber = roundId
        ∧ p.playResult.GamePlayIndex = playId) :
    ∃ p ∈ rs, p.playResult.PlaySequenceNumber = roundId
      ∧ p.playResult.GamePlayIndex = playId
      ∧ rs.foldl
          (fun acc round =>
            if round.playResult.PlaySequenceNumber = roundId
                ∧ round.playResult.GamePlayIndex = playId
            then some round else acc) acc = some p := by
  induction rs generalizing acc with
  | nil => rcases h with ⟨p, hp, _⟩; cases hp
  | cons a as ih =>
    by_cases hm : ∃ p ∈ as, p.playResult.PlaySequenceNumber = roundId
        ∧ p.playResult.GamePlayIndex = playId
    · rcases ih (if a.playResult.PlaySequenceNumber = roundId
          ∧ a.playResult.GamePlayIndex = playId then some a else acc) hm
        with ⟨p, hp, h1, h2, he⟩
      exact ⟨p, List.mem_cons_of_mem a hp, h1, h2, by rw [List.foldl_cons]; exact he⟩
    · have ha : a.playResult.PlaySequenceNumber = roundId
          ∧ a.playResult.GamePlayIndex = playId := by
        rcases h with ⟨p, hp, hP⟩
        rcases List.mem_cons.mp hp with rfl | hmem
        · exact hP
        · exact absurd ⟨p, hmem, hP⟩ hm
      refine ⟨a, List.mem_cons_self a as, ha.1, ha.2, ?_⟩
      rw [List.foldl_cons, if_pos ha]
      exact foldl_found_none roundId playId as (some a)
        (fun p hp hP => hm ⟨p, hp, hP⟩)

/-- C3: `GetPreviousResult` over a received remote config — a serialized
matching entry when one exists; the serialized first (most recent) entry
plus an error log when none matches; a null return plus an error log when
the round-history list itself is null. -/
theorem getPreviousResult_spec (s : GameSetupState) (r : ISetupResult)
    (hr : s.rgsConfig = some r) (roundId playId : Int) :
    (∀ rs, r.roundStates = some rs →
      ((∃ p ∈ rs, p.playResult.PlaySequenceNumber = roundId
          ∧ p.playResult.GamePlayIndex = playId) →
        ∃ p ∈ rs, p.playResult.PlaySequenceNumber = roundId
          ∧ p.playResult.GamePlayIndex = playId
          ∧ GetPreviousResult s roundId playId = .ok (some (stringifyPlayState p), []))
      ∧ ((∀ p ∈ rs, ¬(p.playResult.PlaySequenceNumber = roundId
            ∧ p.playResult.GamePlayIndex = playId)) →
        GetPreviousResult s roundId playId
          = .ok (rs.head?.map stringifyPlayState, [noMatchLog roundId playId])))
    ∧ (r.roundStates = none →
        GetPreviousResult s roundId playId
          = .ok (none, ["Tried to get a previous result, but no roundStates found"])) := by
  constructor
  · intro rs hrs
    constructor
    · intro hex
      rcases foldl_found_some roundId playId rs none hex with ⟨p, hmem, h1, h2, hfold⟩
      refine ⟨p, hmem, h1, h2, ?_⟩
      simp [GetPreviousResult, hr, hrs, hfold]
    · intro hnone
      have hfold := foldl_found_none roundId playId rs none hnone
      simp [GetPreviousResult, hr, hrs, hfold]
  · intro hnone
    simp [GetPreviousResult, hr, hnone]

/-- C3 witness: evaluated at a concrete two-entry history in which `playB`
matches round 5, play 2. -/
theorem getPreviousResult_spec_witness :
    GetPreviousResult stateRounds 5 2 = .ok (some (stringifyPlayState playB), []) := by
  have h := ((getPreviousResult_spec stateRounds setupRounds rfl 5 2).1 [playA, playB] rfl).1
    ⟨playB, by decide, by decide, by decide⟩
  rcases h with ⟨p, hmem, h1, h2, heq⟩
  have hp : p = playB := by
    rcases List.mem_cons.mp hmem with rfl | hmem2
    · exact absurd h1 (by decide)
    · rcases List.mem_cons.mp hmem2 with rfl | h3
      · rfl
      · cases h3
  rw [hp] at heq
  exact heq

/-! ## C5: derived RTP display — order lemmas -/

/-- Folding `min` commutes with an outer `min`. -/
theorem foldl_min_comm (as : List Rat) (x a : Rat) :
    as.foldl min (min x a) = min x (as.foldl min a) := by
  induction as generalizing a with
  | nil => rfl
  | cons b bs ih =>
    rw [List.foldl_cons, List.foldl_cons, min_assoc]
    exact ih (min a b)

/-- Folding `max` commutes with an outer `max`. -/
theorem foldl_max_comm (as : List Rat) (x a : Rat) :
    as.foldl max (max x a) = max x (as.foldl max a) := by
  induction as generalizing a with
  | nil => rfl
  | cons b bs ih =>
    rw [List.foldl_cons, List.foldl_cons, max_assoc]
    exact ih (max a b)

/-- `listMinQ` is `none` exactly on the empty list. -/
theorem listMinQ_eq_none_iff (l : List Rat) : listMinQ l = none ↔ l = [] := by
  cases l <;> simp [listMinQ]

/-- `listMaxQ` is `none` exactly on the empty list. -/
theorem listMaxQ_eq_none_iff (l : List Rat) : listMaxQ l = none ↔ l = [] := by
  cases l <;> simp [listMaxQ]

/-- Cons characterization of `listMinQ`. -/
theorem listMinQ_cons (a : Rat) (as : List Rat) :
    listMinQ (a :: as) = some ((listMinQ as).elim a (min a)) := by
  cases as with
  | nil => rfl
  | cons b bs =>
    simp only [listMinQ, Option.elim]
    rw [List.foldl_cons, foldl_min_comm]

/-- Cons characterization of `listMaxQ`. -/
theorem listMaxQ_cons (a : Rat) (as : List Rat) :
    listMaxQ (a :: as) = some ((listMaxQ as).elim a (max a)) := by
  cases as with
  | nil => rfl
  | cons b bs =>
    simp only [listMaxQ, Option.elim]
    rw [List.foldl_cons, foldl_max_comm]

/-- `listMinQ` is invariant under permutation. -/
theorem listMinQ_perm {l l₂ : List Rat} (h : l.Perm l₂) : listMinQ l = listMinQ l₂ := by
  induction h with
  | nil => rfl
  | cons a _ ih => rw [listMinQ_cons, listMinQ_cons, ih]
  | swap a b l =>
    rw [listMinQ_cons, listMinQ_cons, listMinQ_cons, listMinQ_cons]
    cases hm : listMinQ l with
    | none => simp [min_comm]
    | some m => simp [min_left_comm]
  | trans _ _ ih1 ih2 => rw [ih1, ih2]

/-- `listMaxQ` is invariant under permutation. -/
theorem listMaxQ_perm {l l₂ : List Rat} (h : l.Perm l₂) : listMaxQ l = listMaxQ l₂ := by
  induction h with
  | nil => rfl
  | cons a _ ih => rw [listMaxQ_cons, listMaxQ_cons, ih]
  | swap a b l =>
    rw [listMaxQ_cons, listMaxQ_cons, listMaxQ_cons, listMaxQ_cons]
    cases hm : listMaxQ l with
    | none => simp [max_comm]
    | some m => simp [max_left_comm]
  | trans _ _ ih1 ih2 => rw [ih1, ih2]

/-- Folding `min` from a lower bound of the list is the identity. -/
theorem foldl_min_of_le (a : Rat) (as : List Rat) (h : ∀ x ∈ as, a ≤ x) :
    as.foldl min a = a := by
  induction as with
  | nil => rfl
  | cons b bs ih =>
    rw [List.foldl_cons, min_eq_left (h b (List.mem_cons_self b bs))]
    exact ih (fun x hx => h x (List.mem_cons_of_mem b hx))

/-- The head of a sorted list is its minimum. -/
theorem sorted_head_eq_listMinQ {l : List Rat} (h : List.Sorted (· ≤ ·) l) :
    l.head? = listMinQ l := by
  cases l with
  | nil => rfl
  | cons a as =>
    simp only [List.head?, listMinQ]
    rw [foldl_min_of_le a as (fun x hx => (List.sorted_cons.mp h).1 x hx)]

/-- A seed is below its `max`-fold. -/
theorem le_foldl_max (a : Rat) (as : List Rat) : a ≤ as.foldl max a := by
  induction as generalizing a with
  | nil => exact le_refl a
  | cons b bs ih =>
    rw [List.foldl_cons]
    exact le_trans (le_max_left a b) (ih (max a b))

/-- The last element of a sorted list is its maximum. -/
theorem sorted_getLast_eq_listMaxQ {l : List Rat} (h : List.Sorted (· ≤ ·) l) :
    l.getLast? = listMaxQ l := by
  induction l with
  | nil => rfl
  | cons a as ih =>
    cases as with
    | nil => rfl
    | cons b bs =>
      have hab : a ≤ b := (List.sorted_cons.mp h).1 b (List.mem_cons_self b bs)
      rw [List.getLast?_cons_cons, ih (List.sorted_cons.mp h).2]
      simp only [listMaxQ, List.foldl_cons]
      rw [max_eq_right hab]

/-- The head of the ascending sort is the global minimum. -/
theorem jsSortAsc_head (l : List Rat) : (jsSortAsc l).head? = listMinQ l := by
  have hs := List.sorted_insertionSort (α := Rat) (· ≤ ·) l
  have hp := List.perm_insertionSort (α := Rat) (· ≤ ·) l
  rw [jsSortAsc, sorted_head_eq_listMinQ hs, listMinQ_perm hp]

/-- The last element of the ascending sort is the global maximum. -/
theorem jsSortAsc_getLast (l : List Rat) : (jsSortAsc l).getLast? = listMaxQ l := by
  have hs := List.sorted_insertionSort (α := Rat) (· ≤ ·) l
  have hp := List.perm_insertionSort (α := Rat) (· ≤ ·) l
  rw [jsSortAsc, sorted_getLast_eq_listMaxQ hs, listMaxQ_perm hp]

/-- `headJ` of the sort, given the minimum. -/
theorem headJ_jsSortAsc (l : List Rat) (m : Rat) (h : listMinQ l = some m) :
    headJ (jsSortAsc l) = .num m := by
  unfold headJ
  rw [jsSortAsc_head, h]

/-- `lastJ` of the sort, given the maximum. -/
theorem lastJ_jsSortAsc (l : List Rat) (m : Rat) (h : listMaxQ l = some m) :
    lastJ (jsSortAsc l) = .num m := by
  unfold lastJ
  rw [jsSortAsc_getLast, h]

/-! ## C5: derived RTP display — loop invariant -/

/-- `allRtpVals` ignores a config without an RTP array. -/
theorem allRtpVals_cons_none (k : String) (dc : IDenomConfig)
    (rest : List (String × IDenomConfig)) (h : dc.rtp = none) :
    allRtpVals ((k, dc) :: rest) = allRtpVals rest := by
  simp [allRtpVals, definedRtps, h]

/-- `allRtpVals` prepends a defined RTP array. -/
theorem allRtpVals_cons_some (k : String) (dc : IDenomConfig)
    (rest : List (String × IDenomConfig)) (l : List Rat) (h : dc.rtp = some l) :
    allRtpVals ((k, dc) :: rest) = l ++ allRtpVals rest := by
  simp [allRtpVals, definedRtps, h]

/-- Folding `min` over a list with known minimum. -/
theorem foldl_min_listMinQ (l : List Rat) (lo m : Rat) (h : listMinQ l = some m) :
    l.foldl min lo = min lo m := by
  cases l with
  | nil => cases h
  | cons a as =>
    have hm : as.foldl min a = m := Option.some.inj h
    rw [List.foldl_cons, foldl_min_comm, hm]

/-- Folding `max` over a list with known maximum. -/
theorem foldl_max_listMaxQ (l : List Rat) (hi m : Rat) (h : listMaxQ l = some m) :
    l.foldl max hi = max hi m := by
  cases l with
  | nil => cases h
  | cons a as =>
    have hm : as.foldl max a = m := Option.some.inj h
    rw [List.foldl_cons, foldl_max_comm, hm]

/-- `listMinQ` over an append with known left minimum. -/
theorem listMinQ_append (l r : List Rat) (m : Rat) (h : listMinQ l = some m) :
    listMinQ (l ++ r) = some (r.foldl min m) := by
  cases l with
  | nil => cases h
  | cons a as =>
    have hm : as.foldl min a = m := Option.some.inj h
    simp only [List.cons_append, listMinQ, List.foldl_append, hm]

/-- `listMaxQ` over an append with known left maximum. -/
theorem listMaxQ_append (l r : List Rat) (m : Rat) (h : listMaxQ l = some m) :
    listMaxQ (l ++ r) = some (r.foldl max m) := by
  cases l with
  | nil => cases h
  | cons a as =>
    have hm : as.foldl max a = m := Option.some.inj h
    simp only [List.cons_append, listMaxQ, List.foldl_append, hm]

/-- The running-low update of the loop computes a `min`. -/
theorem jval_min_step (lo m : Rat) :
    (if jsLt (JVal.num m) (JVal.num lo) then JVal.num m else JVal.num lo)
      = JVal.num (min lo m) := by
  by_cases h : m < lo
  · rw [if_pos (by simpa [jsLt] using h), min_eq_right h.le]
  · rw [if_neg (by simpa [jsLt] using h), min_eq_left (le_of_not_lt h)]

/-- The running-high update of the loop computes a `max`. -/
theorem jval_max_step (hi m : Rat) :
    (if jsGt (JVal.num m) (JVal.num hi) then JVal.num m else JVal.num hi)
      = JVal.num (max hi m) := by
  by_cases h : hi < m
  · rw [if_pos (by simpa [jsGt, jsLt] using h), max_eq_right h.le]
  · rw [if_neg (by simpa [jsGt, jsLt] using h), max_eq_left (le_of_not_lt h)]

/-- Loop invariant after the first defined RTP array: from numeric running
values `(lo, hi)`, the loop folds `min`/`max` over all later RTP values
(every defined array being nonempty). -/
theorem rtpFold_go (dcs : List (String × IDenomConfig))
    (h : ∀ l ∈ definedRtps dcs, l ≠ []) (lo hi : Rat) :
    dcs.foldl rtpFoldStep (JVal.num lo, JVal.num hi, false)
      = (JVal.num ((allRtpVals dcs).foldl min lo),
         JVal.num ((allRtpVals dcs).foldl max hi), false) := by
  induction dcs generalizing lo hi with
  | nil => simp [allRtpVals, definedRtps]
  | cons p rest ih =>
    rcases p with ⟨k, dc⟩
    have hrest : ∀ l ∈ definedRtps rest, l ≠ [] := by
      intro l hl
      exact h l (by simp [definedRtps] at hl ⊢; exact Or.inr hl)
    cases hrtp : dc.rtp with
    | none =>
      rw [List.foldl_cons]
      have hstep : rtpFoldStep (JVal.num lo, JVal.num hi, false) (k, dc)
          = (JVal.num lo, JVal.num hi, false) := by
        simp [rtpFoldStep, hrtp]
      rw [hstep, ih hrest lo hi, allRtpVals_cons_none k dc rest hrtp]
    | some l =>
      have hl : l ≠ [] := h l (by simp [definedRtps, hrtp])
      rcases hm : listMinQ l with _ | m
      · exact absurd ((listMinQ_eq_none_iff l).mp hm) hl
      rcases hM : listMaxQ l with _ | M
      · exact absurd ((listMaxQ_eq_none_iff l).mp hM) hl
      have hstep : rtpFoldStep (JVal.num lo, JVal.num hi, false) (k, dc)
          = (JVal.num (min lo m), JVal.num (max hi M), false) := by
        simp only [rtpFoldStep, hrtp]
        rw [headJ_jsSortAsc l m hm, lastJ_jsSortAsc l M hM]
        simp only [if_neg (Bool.false_ne_true)]
        rw [jval_min_step, jval_max_step]
      rw [List.foldl_cons, hstep, ih hrest (min lo m) (max hi M),
        allRtpVals_cons_some k dc rest l hrtp]
      rw [List.foldl_append, List.foldl_append,
        foldl_min_listMinQ l lo m hm, foldl_max_listMaxQ l hi M hM]

/-- Loop invariant from the initial `(null, null, first)` state: the loop
computes the global minimum and maximum of all defined (nonempty) RTP
values, or stays in its initial state when no config defines an array. -/
theorem rtpFold_main (dcs : List (String × IDenomConfig))
    (h : ∀ l ∈ definedRtps dcs, l ≠ []) :
    dcs.foldl rtpFoldStep (JVal.null, JVal.null, true)
      = (match listMinQ (allRtpVals dcs), listMaxQ (allRtpVals dcs) with
         | some lo, some hi => (JVal.num lo, JVal.num hi, false)
         | _, _ => (JVal.null, JVal.null, true)) := by
  induction dcs with
  | nil => rfl
  | cons p rest ih =>
    rcases p with ⟨k, dc⟩
    have hrest : ∀ l ∈ definedRtps rest, l ≠ [] := by
      intro l hl
      exact h l (by simp [definedRtps] at hl ⊢; exact Or.inr hl)
    cases hrtp : dc.rtp with
    | none =>
      rw [List.foldl_cons]
      have hstep : rtpFoldStep (JVal.null, JVal.null, true) (k, dc)
          = (JVal.null, JVal.null, true) := by
        simp [rtpFoldStep, hrtp]
      rw [hstep, ih hrest, allRtpVals_cons_none k dc rest hrtp]
    | some l =>
      have hl : l ≠ [] := h l (by simp [definedRtps, hrtp])
      rcases hm : listMinQ l with _ | m
      · exact absurd ((listMinQ_eq_none_iff l).mp hm) hl
      rcases hM : listMaxQ l with _ | M
      · exact absurd ((listMaxQ_eq_none_iff l).mp hM) hl
      have hstep : rtpFoldStep (JVal.null, JVal.null, true) (k, dc)
          = (JVal.num m, JVal.num M, false) := by
        simp only [rtpFoldStep, hrtp]
        rw [headJ_jsSortAsc l m hm, lastJ_jsSortAsc l M hM]
        simp
      rw [List.foldl_cons, hstep, rtpFold_go rest hrest m M,
        allRtpVals_cons_some k dc rest l hrtp,
        listMinQ_append l (allRtpVals rest) m hm,
        listMaxQ_append l (allRtpVals rest) M hM]

/-! ## C5: derived RTP display — main results -/

/-- The guarded `if (v) v = v / 100` step always divides a number by 100
(zero is falsy, but dividing zero changes nothing). -/
theorem scale_step (x : Rat) :
    (if jsTruthyJ (JVal.num x) then scaleJ (JVal.num x) else JVal.num x)
      = JVal.num (x / 100) := by
  by_cases h : x = 0
  · subst h
    simp [jsTruthyJ, scaleJ]
  · simp [jsTruthyJ, scaleJ, h]

/-- C5 amended: when every defined RTP array is nonempty, the display value
is formatted from the global minimum and maximum over all defined RTP
values, each divided by 100: a single percentage when they coincide, a
low–high range otherwise; when no denom config defines an RTP array, the
value is the empty string and the diagnostic is logged.  (The claim as
stated fails when a defined RTP array is empty — see the counterexample.) -/
theorem rtp_display_amended (dcs : List (String × IDenomConfig))
    (hne : ∀ l ∈ definedRtps dcs, l ≠ []) :
    (∀ lo hi, listMinQ (allRtpVals dcs) = some lo → listMaxQ (allRtpVals dcs) = some hi →
      updateObservablesRtp dcs
        = .ok ((if lo = hi then rtpSingle (lo / 100) else rtpRange (lo / 100) (hi / 100)), []))
    ∧ (definedRtps dcs = [] →
        updateObservablesRtp dcs = .ok ("", ["No RTP configured for game."])) := by
  constructor
  · intro lo hi hlo hhi
    unfold updateObservablesRtp
    rw [rtpFold_main dcs hne, hlo, hhi]
    simp only
    rw [scale_step lo, scale_step hi]
    by_cases he : lo = hi
    · subst he
      simp [jsStrictNeq, rtpSingle]
    · have hd : lo / 100 ≠ hi / 100 := by
        intro hc
        have h100 : (100 : Rat) ≠ 0 := by norm_num
        have hm := congrArg (fun x => x * 100) hc
        simp only [div_mul_cancel₀ _ h100] at hm
        exact he hm
      simp [jsStrictNeq, hd, he, rtpRange]
  · intro hdef
    have hvals : allRtpVals dcs = [] := by simp [allRtpVals, hdef]
    unfold updateObservablesRtp
    rw [rtpFold_main dcs hne, hvals]
    rfl

/-- C5 witness: the amended statement evaluated on two overlapping nonempty
RTP arrays (global minimum 9000, maximum 9600). -/
theorem rtp_display_amended_witness :
    updateObservablesRtp witDenoms
      = .ok (rtpRange ((9000 : Rat) / 100) ((9600 : Rat) / 100), []) := by
  have h := (rtp_display_amended witDenoms (by decide)).1 9000 9600 (by decide) (by decide)
  rw [if_neg (by norm_num : ¬(9000 : Rat) = 9600)] at h
  exact h

/-- C5 counterexample: one config defines the empty RTP array `[]`, a later
one defines `[300]`; the claimed global minimum and maximum are both 300, so
the claim requires a single formatted percentage, but the code produces the
blank no-RTP value with the diagnostic, because the `undefined` ends of the
empty array poison the running low/high comparisons. -/
theorem rtp_display_empty_array_counterexample :
    allRtpVals cexDenoms = [300]
      ∧ updateObservablesRtp cexDenoms = .ok ("", ["No RTP configured for game."])
      ∧ updateObservablesRtp cexDenoms ≠ .ok (rtpSingle ((300 : Rat) / 100), []) := by
  have hval : updateObservablesRtp cexDenoms = .ok ("", ["No RTP configured for game."]) := by
    rfl
  refine ⟨rfl, hval, ?_⟩
  rw [hval]
  intro hc
  have h1 := Except.ok.inj hc
  have h2 := congrArg Prod.snd h1
  simp at h2

end GameSetupSpec
